import Mathlib

/-!
Verification of the calendar-notes application (calendar widget, date toolkit,
notes store and Firestore sync layer) against its specification.

The JavaScript `Date` values used by the program carry no relevant time-of-day
information: every operation the program performs on them (`getDay`, `getDate`,
`getMonth`, `getFullYear`, `setDate`, `setMonth`, `toLocaleDateString`,
same-day comparison) is at calendar-day precision.  We therefore model a
`Date` as its epoch **day** number (an integer, day 0 = 1970-01-01) in a fixed
timezone with no offset, and model the ECMAScript field accessors and setters
through a proleptic-Gregorian conversion between epoch days and civil
`(year, month, day)` triples, exactly as ECMAScript's `MakeDay` /
`YearFromTime` / `MonthFromTime` / `DateFromTime` define them.

All divisions below are by positive constants, for which Lean's integer `/`
(`Int.ediv`) and `%` (`Int.emod`) agree with the floor division / modulo used
by the ECMAScript specification.
-/

/-- Epoch day number of the civil date `(y, m, d)` (month `1..12`), proleptic
Gregorian calendar.  Out-of-range `d` simply offsets from the first of the
month, which is exactly the normalization ECMAScript's `MakeDay` performs. -/
def daysFromCivil (y m d : Int) : Int :=
  let y2 := y - (if m ≤ 2 then 1 else 0)
  let era := (y2 / 400 : Int)
  let yoe := y2 - era * 400
  let doy := (153 * (m + (if 2 < m then -3 else 9)) + 2) / 5 + d - 1
  let doe := yoe * 365 + yoe / 4 - yoe / 100 + doy
  era * 146097 + doe - 719468

/-- Civil date `(year, month, day)` (month `1..12`) of an epoch day number. -/
def civilFromDays (z : Int) : Int × Int × Int :=
  let w := z + 719468
  let era := (w / 146097 : Int)
  let doe := w - era * 146097
  let yoe := (doe - doe / 1460 + doe / 36524 - doe / 146096) / 365
  let doy := doe - (365 * yoe + yoe / 4 - yoe / 100)
  let mp := (5 * doy + 2) / 153
  let d := doy - (153 * mp + 2) / 5 + 1
  let m := mp + (if mp < 10 then 3 else -9)
  let y := yoe + era * 400
  (y + (if m ≤ 2 then 1 else 0), m, d)

/-- JavaScript `Date.prototype.getFullYear` (fixed timezone). -/
def getFullYear (t : Int) : Int := (civilFromDays t).1

/-- JavaScript `Date.prototype.getMonth`: zero-based month `0..11`. -/
def getMonth (t : Int) : Int := (civilFromDays t).2.1 - 1

/-- JavaScript `Date.prototype.getDate`: day of month `1..31`. -/
def getDate (t : Int) : Int := (civilFromDays t).2.2

/-- JavaScript `Date.prototype.getDay`: weekday, Sunday = 0.
Day 0 (1970-01-01) was a Thursday, weekday 4. -/
def getDay (t : Int) : Int := (t + 4) % 7

/-- ECMAScript `MakeDay`: the day number of `(y, m, d)` where `m` is a
zero-based month that may lie outside `0..11` and `d` a day of month that may
lie outside the month, both normalized by calendar rollover. -/
def makeDay (y m d : Int) : Int :=
  daysFromCivil (y + m / 12) (m % 12 + 1) 1 + (d - 1)

/-- JavaScript `Date.prototype.setFullYear` (keeping month and day fields). -/
def setFullYear (t y : Int) : Int := makeDay y (getMonth t) (getDate t)

/-- JavaScript `Date.prototype.setMonth` (keeping year and day fields). -/
def setMonth (t m : Int) : Int := makeDay (getFullYear t) m (getDate t)

/-- JavaScript `Date.prototype.setDate` (keeping year and month fields). -/
def setDate (t d : Int) : Int := makeDay (getFullYear t) (getMonth t) d

/-! ### Round-trip between `daysFromCivil` and `civilFromDays`

The two conversions are mutually inverse.  The only genuinely hard part is
that the closed-form year-of-era extraction in `civilFromDays` is correct;
`yoe_window` establishes it by case analysis on the 4-year block of the era,
and the rest is linear arithmetic. -/

/-- Day of the era on which year-of-era `y` starts (valid for `0 ≤ y ≤ 399`;
the leap day of year 400 of the era is accounted for separately). -/
def eraYearStartAux (y : Int) : Int := 365 * y + y / 4 - y / 100

set_option maxHeartbeats 4000000 in
/-- The year-of-era formula of `civilFromDays` lands in `0..399` and its year
window contains `doe`. -/
theorem yoe_window (doe : Int) (h1 : 0 ≤ doe) (h2 : doe ≤ 146096) :
    0 ≤ (doe - doe / 1460 + doe / 36524 - doe / 146096) / 365 ∧
    (doe - doe / 1460 + doe / 36524 - doe / 146096) / 365 ≤ 399 ∧
    eraYearStartAux ((doe - doe / 1460 + doe / 36524 - doe / 146096) / 365) ≤ doe ∧
    ((doe - doe / 1460 + doe / 36524 - doe / 146096) / 365 ≤ 398 →
      doe < eraYearStartAux ((doe - doe / 1460 + doe / 36524 - doe / 146096) / 365 + 1)) := by
  obtain ⟨q1, hq1⟩ : ∃ q1, q1 = doe / 1460 := ⟨doe / 1460, rfl⟩
  simp only [eraYearStartAux]
  have hb1 : 0 ≤ q1 := by omega
  have hb2 : q1 ≤ 100 := by omega
  interval_cases q1 <;>
    first
      | omega
      | (obtain ⟨r, hr0, hr6, hrEq⟩ :
            ∃ r, 0 ≤ r ∧ r ≤ 6 ∧
              (doe - doe / 1460 + doe / 36524 - doe / 146096) / 365 =
                (doe / 1460) * 4 - 2 + r :=
            ⟨(doe - doe / 1460 + doe / 36524 - doe / 146096) / 365 - (doe / 1460) * 4 + 2,
              by omega, by omega, by omega⟩
         interval_cases r <;> omega)

set_option maxHeartbeats 1000000 in
/-- Assembly step for the forward round trip, with every intermediate value of
`civilFromDays` abstracted into a hypothesis. -/
theorem rt_assembly (z w era doe yoe doy mp d m y : Int)
    (hw : w = z + 719468) (hera : era = w / 146097) (hdoe : doe = w - era * 146097)
    (hyoe : yoe = (doe - doe / 1460 + doe / 36524 - doe / 146096) / 365)
    (hdoy : doy = doe - (365 * yoe + yoe / 4 - yoe / 100))
    (hmp : mp = (5 * doy + 2) / 153)
    (hd : d = doy - (153 * mp + 2) / 5 + 1)
    (hm : m = mp + (if mp < 10 then 3 else -9))
    (hy : y = yoe + era * 400) :
    daysFromCivil (y + (if m ≤ 2 then 1 else 0)) m d = z := by
  have h := yoe_window doe (by omega) (by omega)
  rw [← hyoe] at h
  simp only [eraYearStartAux] at h
  simp only [daysFromCivil]
  split_ifs with hA hC
  · omega
  · have hn : (y + 1 - 1) / 400 = era := by omega
    have ho : (y + 1 - 1 - (y + 1 - 1) / 400 * 400) / 4 = yoe / 4 := by omega
    have hp : (y + 1 - 1 - (y + 1 - 1) / 400 * 400) / 100 = yoe / 100 := by omega
    have hq : (153 * (m + 9) + 2) / 5 = (153 * mp + 2) / 5 := by omega
    omega
  · have hn : (y + 0 - 0) / 400 = era := by omega
    have ho : (y + 0 - 0 - (y + 0 - 0) / 400 * 400) / 4 = yoe / 4 := by omega
    have hp : (y + 0 - 0 - (y + 0 - 0) / 400 * 400) / 100 = yoe / 100 := by omega
    have hq : (153 * (m + -3) + 2) / 5 = (153 * mp + 2) / 5 := by omega
    omega
  · omega

/-- Converting an epoch day to a civil triple and back is the identity. -/
theorem daysFromCivil_civilFromDays (z : Int) :
    daysFromCivil (civilFromDays z).1 (civilFromDays z).2.1 (civilFromDays z).2.2 = z :=
  rt_assembly z _ _ _ _ _ _ _ _ _ rfl rfl rfl rfl rfl rfl rfl rfl rfl

/-- Two year-of-era values whose year windows both contain `doe` coincide. -/
theorem yoe_unique (doe y1 y2 : Int) (b1 : 0 ≤ y1) (b1' : y1 ≤ 399)
    (b2 : 0 ≤ y2) (b2' : y2 ≤ 399) (_hdoe : doe ≤ 146096)
    (l1 : eraYearStartAux y1 ≤ doe) (u1 : y1 ≤ 398 → doe < eraYearStartAux (y1 + 1))
    (l2 : eraYearStartAux y2 ≤ doe) (u2 : y2 ≤ 398 → doe < eraYearStartAux (y2 + 1)) :
    y1 = y2 := by
  simp only [eraYearStartAux] at l1 u1 l2 u2
  rcases lt_trichotomy y1 y2 with h | h | h
  · rcases eq_or_lt_of_le (show y1 + 1 ≤ y2 by omega) with h2 | h2 <;> omega
  · exact h
  · rcases eq_or_lt_of_le (show y2 + 1 ≤ y1 by omega) with h2 | h2 <;> omega

set_option maxHeartbeats 1000000 in
/-- Assembly step for the reverse round trip: `civilFromDays` recovers a valid
civil triple (with day of month at most 28, so that the triple is valid in
every month) from its `daysFromCivil` image. -/
theorem rt_rev_assembly (y m d b y2 era yoe mAdj doy doe z : Int)
    (hm1 : 1 ≤ m) (hm2 : m ≤ 12) (hd1 : 1 ≤ d) (hd2 : d ≤ 28)
    (hb : b = if m ≤ 2 then 1 else 0)
    (hy2 : y2 = y - b) (hera : era = y2 / 400) (hyoe : yoe = y2 - era * 400)
    (hmAdj : mAdj = m + (if 2 < m then -3 else 9))
    (hdoy : doy = (153 * mAdj + 2) / 5 + d - 1)
    (hdoe : doe = yoe * 365 + yoe / 4 - yoe / 100 + doy)
    (hz : z = era * 146097 + doe - 719468) :
    civilFromDays z = (y, m, d) := by
  have hbnd : 0 ≤ yoe ∧ yoe ≤ 399 := by omega
  have hmAdjBnd : 0 ≤ mAdj ∧ mAdj ≤ 11 := by
    rcases le_or_lt m 2 with h | h
    · rw [if_neg (by omega)] at hmAdj
      omega
    · rw [if_pos h] at hmAdj
      omega
  have hdoyBnd : 0 ≤ doy ∧ doy ≤ 364 := by omega
  have hdoeBnd : 0 ≤ doe ∧ doe ≤ 146096 := by omega
  have hwin := yoe_window doe hdoeBnd.1 hdoeBnd.2
  have htrue : eraYearStartAux yoe ≤ doe ∧ (yoe ≤ 398 → doe < eraYearStartAux (yoe + 1)) := by
    simp only [eraYearStartAux]
    constructor
    · omega
    · intro hy398
      rcases (show (yoe + 1) / 100 = yoe / 100 ∨ (yoe + 1) / 100 = yoe / 100 + 1 by omega)
        with hs | hs
      · omega
      · have h4 : (yoe + 1) / 4 = yoe / 4 + 1 := by omega
        omega
  have hyoeEq : (doe - doe / 1460 + doe / 36524 - doe / 146096) / 365 = yoe :=
    yoe_unique doe _ yoe hwin.1 hwin.2.1 hbnd.1 hbnd.2 hdoeBnd.2 hwin.2.2.1 hwin.2.2.2
      htrue.1 htrue.2
  simp only [civilFromDays]
  have heraEq : (z + 719468) / 146097 = era := by omega
  rw [heraEq]
  rw [show z + 719468 - era * 146097 = doe from by omega]
  rw [hyoeEq]
  rw [show doe - (365 * yoe + yoe / 4 - yoe / 100) = doy from by omega]
  have hmpEq : (5 * doy + 2) / 153 = mAdj := by omega
  rw [hmpEq]
  simp only [Prod.mk.injEq]
  rcases le_or_lt m 2 with h | h
  · rw [if_neg (show ¬2 < m by omega)] at hmAdj
    rw [if_pos h] at hb
    rw [if_pos (show mAdj + (if mAdj < 10 then 3 else -9) ≤ 2 from by
      rw [if_neg (show ¬mAdj < 10 by omega)]; omega)]
    rw [if_neg (show ¬mAdj < 10 by omega)]
    refine ⟨by omega, by omega, by omega⟩
  · rw [if_pos h] at hmAdj
    rw [if_neg (show ¬m ≤ 2 by omega)] at hb
    rw [if_neg (show ¬(mAdj + (if mAdj < 10 then 3 else -9) ≤ 2) from by
      rw [if_pos (show mAdj < 10 by omega)]; omega)]
    rw [if_pos (show mAdj < 10 by omega)]
    refine ⟨by omega, by omega, by omega⟩

/-- Reverse round trip on valid triples with day of month at most 28. -/
theorem civilFromDays_daysFromCivil (y m d : Int)
    (hm1 : 1 ≤ m) (hm2 : m ≤ 12) (hd1 : 1 ≤ d) (hd2 : d ≤ 28) :
    civilFromDays (daysFromCivil y m d) = (y, m, d) :=
  rt_rev_assembly y m d _ _ _ _ _ _ _ _ hm1 hm2 hd1 hd2
    rfl rfl rfl rfl rfl rfl rfl rfl

set_option maxHeartbeats 1000000 in
theorem fields_assembly (z w era doe yoe doy mp d m : Int)
    (hw : w = z + 719468) (hera : era = w / 146097) (hdoe : doe = w - era * 146097)
    (hyoe : yoe = (doe - doe / 1460 + doe / 36524 - doe / 146096) / 365)
    (hdoy : doy = doe - (365 * yoe + yoe / 4 - yoe / 100))
    (hmp : mp = (5 * doy + 2) / 153)
    (hd : d = doy - (153 * mp + 2) / 5 + 1)
    (hm : m = mp + (if mp < 10 then 3 else -9)) :
    1 ≤ m ∧ m ≤ 12 ∧ 1 ≤ d ∧ d ≤ 31 := by
  have h := yoe_window doe (by omega) (by omega)
  rw [← hyoe] at h
  simp only [eraYearStartAux] at h
  omega

/-- The civil month of any epoch day lies in `1..12` and the civil day of
month in `1..31`. -/
theorem civilFromDays_range (z : Int) :
    1 ≤ (civilFromDays z).2.1 ∧ (civilFromDays z).2.1 ≤ 12 ∧
    1 ≤ (civilFromDays z).2.2 ∧ (civilFromDays z).2.2 ≤ 31 :=
  fields_assembly z _ _ _ _ _ _ _ _ rfl rfl rfl rfl rfl rfl rfl rfl

theorem getMonth_range (t : Int) : 0 ≤ getMonth t ∧ getMonth t ≤ 11 := by
  have h := civilFromDays_range t
  simp only [getMonth]
  omega

/-- `makeDay` on an in-range zero-based month needs no month normalization. -/
theorem makeDay_valid (y m0 d : Int) (h0 : 0 ≤ m0) (h1 : m0 ≤ 11) :
    makeDay y m0 d = daysFromCivil y (m0 + 1) 1 + (d - 1) := by
  simp only [makeDay]
  rw [show m0 / 12 = 0 by omega, show m0 % 12 = m0 by omega, add_zero]

theorem setDate_eq (t d : Int) :
    setDate t d = daysFromCivil (getFullYear t) (getMonth t + 1) 1 + (d - 1) := by
  have h := getMonth_range t
  simp only [setDate]
  exact makeDay_valid _ _ _ h.1 h.2

/-- `setDate` is linear in the requested day of month. -/
theorem setDate_linear (t d1 d2 : Int) : setDate t d2 = setDate t d1 + (d2 - d1) := by
  rw [setDate_eq, setDate_eq]
  omega

/-- The civil fields of the first of the month. -/
theorem civilFromDays_setDate_one (t : Int) :
    civilFromDays (setDate t 1) = (getFullYear t, getMonth t + 1, 1) := by
  have h := getMonth_range t
  have he : setDate t 1 = daysFromCivil (getFullYear t) (getMonth t + 1) 1 := by
    rw [setDate_eq]
    omega
  rw [he]
  exact civilFromDays_daysFromCivil _ _ _ (by omega) (by omega) (by omega) (by omega)

/-- Re-normalizing the first of the month is a no-op. -/
theorem setDate_setDate_one (t : Int) : setDate (setDate t 1) 1 = setDate t 1 := by
  have hf := civilFromDays_setDate_one t
  have h := getMonth_range t
  calc setDate (setDate t 1) 1
      = makeDay (getFullYear (setDate t 1)) (getMonth (setDate t 1)) 1 := rfl
    _ = makeDay (getFullYear t) (getMonth t) 1 := by
        simp only [getFullYear, getMonth, hf]
        congr 1
        omega
    _ = setDate t 1 := by
        simp only [setDate, getDate]

theorem daysFromCivil_year_low (y m d : Int) (hm1 : 1 ≤ m) (hm2 : m ≤ 12)
    (hd1 : 1 ≤ d) (hd2 : d ≤ 31) (hy : y ≤ 1969) : daysFromCivil y m d < 0 := by
  simp only [daysFromCivil]
  split_ifs <;> omega

theorem daysFromCivil_year_high (y m d : Int) (hm1 : 1 ≤ m) (hm2 : m ≤ 12)
    (hd1 : 1 ≤ d) (hd2 : d ≤ 31) (hy : 2101 ≤ y) : 47846 < daysFromCivil y m d := by
  simp only [daysFromCivil]
  split_ifs <;> omega

/-- Epoch days `0 .. 47846` are exactly the days 1970-01-01 .. 2100-12-31. -/
theorem getFullYear_range (z : Int) (h0 : 0 ≤ z) (h1 : z ≤ 47846) :
    1970 ≤ getFullYear z ∧ getFullYear z ≤ 2100 := by
  have hr := civilFromDays_range z
  have hz := daysFromCivil_civilFromDays z
  simp only [getFullYear]
  constructor
  · by_contra h
    have := daysFromCivil_year_low (civilFromDays z).1 (civilFromDays z).2.1
      (civilFromDays z).2.2 hr.1 hr.2.1 hr.2.2.1 hr.2.2.2 (by omega)
    omega
  · by_contra h
    have := daysFromCivil_year_high (civilFromDays z).1 (civilFromDays z).2.1
      (civilFromDays z).2.2 hr.1 hr.2.1 hr.2.2.1 hr.2.2.2 (by omega)
    omega

/-! ### `dateTools` (from `calendar-widget.js`) -/

namespace dateTools

/-- `dateTools.cloneDate(date, { day, month, year })`: copy a date, applying
the provided overrides through `setFullYear` / `setMonth` / `setDate` in that
order. -/
def cloneDate (t : Int) (year month day : Option Int) : Int :=
  let t1 := match year with
    | some y => setFullYear t y
    | none => t
  let t2 := match month with
    | some m => setMonth t1 m
    | none => t1
  match day with
  | some d => setDate t2 d
  | none => t2

/-- `dateTools.getDateArray(date)`: the 42-cell month grid.  The source loops
`day` from `start` to `start + 42`, pushing `cloneDate(firstDate, { day })`. -/
def getDateArray (t : Int) : List Int :=
  let firstDate := cloneDate t none none (some 1)
  let firstIndex := getDay firstDate
  let mondayIndex := (firstIndex + 6) % 7
  let start := 1 - mondayIndex
  (List.range 42).map fun i => cloneDate firstDate none none (some (start + (i : Int)))

/-- Two-digit zero padding used by the `en-CA` locale date format. -/
def pad2 (n : Int) : String := if n < 10 then "0" ++ toString n else toString n

/-- `dateTools.toShort(date)`: `date.toLocaleDateString('en-CA')`, the
local-calendar `YYYY-MM-DD` string (years of our range have four digits). -/
def toShort (t : Int) : String :=
  toString (getFullYear t) ++ "-" ++ pad2 (getMonth t + 1) ++ "-" ++ pad2 (getDate t)

/-- English month names as produced by the `en-GB` locale. -/
def monthNames : List String :=
  ["January", "February", "March", "April", "May", "June",
   "July", "August", "September", "October", "November", "December"]

/-- `dateTools.toMonthName(date)` (`en-GB`, long form). -/
def toMonthName (t : Int) : String := monthNames.getD (getMonth t).toNat ""

/-- `dateTools.toYear(date)`. -/
def toYear (t : Int) : Int := getFullYear t

/-- `dateTools.isSameDate(d1, d2)`: same year, month and day fields. -/
def isSameDate (d1 d2 : Int) : Bool :=
  getFullYear d1 == getFullYear d2 && getMonth d1 == getMonth d2 && getDate d1 == getDate d2

/-- `dateTools.isToday(date)` compares against `new Date()` at call time; the
wall clock is passed explicitly as `now`. -/
def isToday (now : Int) (date : Int) : Bool := isSameDate date now

end dateTools

/-! ### `CalendarWidget` (from `calendar-widget.js`)

The DOM side of the widget is modelled by the data the source writes into it:
the navigator text and, for each of the 42 day cells, its class list, its
numeric day label (`textContent`) and its `data-date` tag. -/

/-- The five mutually exclusive visual classifications a day cell can get from
`CalendarWidget.updateDate` (`plain` = no class added). -/
inductive DayCellState
  | dimmed
  | today
  | marked
  | starred
  | plain
deriving DecidableEq

/-- The classification chain of `CalendarWidget.updateDate`, on the four facts
it branches on (in source order: out-of-month, today, chosen, starred). -/
def classifyCell (outOfMonth isTodayF isChosen isStarred : Bool) : DayCellState :=
  if outOfMonth then .dimmed
  else if isTodayF then .today
  else if isChosen then .marked
  else if isStarred then .starred
  else .plain

/-- The CSS classes added for a classification (after `resetDayClasses`). -/
def stateClasses : DayCellState → List String
  | .dimmed => ["dimmed"]
  | .today => ["today"]
  | .marked => ["marked"]
  | .starred => ["starred"]
  | .plain => []

/-- One rendered day cell. -/
structure DayCell where
  classes : List String
  textContent : Int
  dataDate : String
deriving DecidableEq

/-- The `CalendarWidget` custom element.  `onDayClick` records whether a
day-selection callback is registered (the callback body lives outside the
widget). -/
structure CalendarWidget where
  dateChosen : Int
  dateToday : Int
  dateDisplayed : Int
  starredDates : List String
  navigatorText : String
  cells : List DayCell
  onDayClick : Bool
deriving DecidableEq

namespace CalendarWidget

/-- `CalendarWidget.shouldStar(date)`: membership of the short key in
`starredDates`. -/
def shouldStar (w : CalendarWidget) (date : Int) : Bool :=
  w.starredDates.contains (dateTools.toShort date)

/-- `CalendarWidget.updateDate(date)`: re-render navigator text and the 42-day
grid from `date`.  `now` is the wall clock consulted by `isToday`.  Note that
this does **not** modify `dateDisplayed`, `dateChosen` or `starredDates`. -/
def updateDate (now : Int) (w : CalendarWidget) (date : Int) : CalendarWidget :=
  { w with
    navigatorText := dateTools.toMonthName date ++ " " ++ toString (dateTools.toYear date),
    cells := (dateTools.getDateArray date).map fun dateObject =>
      { classes := stateClasses (classifyCell
          (getMonth dateObject != getMonth date)
          (dateTools.isToday now dateObject)
          (dateTools.isSameDate dateObject w.dateChosen)
          (shouldStar w dateObject)),
        textContent := getDate dateObject,
        dataDate := dateTools.toShort dateObject } }

/-- `CalendarWidget.navigateMonth(change)`: `dateDisplayed.setMonth(current +
change)` followed by a re-render from the updated `dateDisplayed`. -/
def navigateMonth (now : Int) (w : CalendarWidget) (change : Int) : CalendarWidget :=
  let d2 := setMonth w.dateDisplayed (getMonth w.dateDisplayed + change)
  updateDate now { w with dateDisplayed := d2 } d2

/-- Click on the navigator (month/year) text: `this.updateDate(this.dateToday)`
— the date captured at construction time, not the wall clock of the click. -/
def clickNavigatorText (now : Int) (w : CalendarWidget) : CalendarWidget :=
  updateDate now w w.dateToday

/-- Click on a day cell (the cell's `data-date`, parsed back to a date, is
`cellDate`).  Everything — setting `dateChosen`, invoking the callback and
scheduling the delayed `updateDate` — happens only under `if (this.onDayClick)`.
The boolean result records whether the delayed re-render was scheduled. -/
def clickDay (w : CalendarWidget) (cellDate : Int) : CalendarWidget × Bool :=
  if w.onDayClick then ({ w with dateChosen := cellDate }, true) else (w, false)

end CalendarWidget

/-! ### Notes store and sync layer (from `script.js` / `firestore-wrapper.js`)

The notes object is a JavaScript object literal: an association list with
unique keys, looked up by key.  `objAssign` is `Object.assign(target, source)`
restricted to string values. -/

def objGet : List (String × String) → String → Option String
  | [], _ => none
  | (k, v) :: rest, key => if k = key then some v else objGet rest key

def objSet : List (String × String) → String → String → List (String × String)
  | [], key, val => [(key, val)]
  | (k, v) :: rest, key, val =>
    if k = key then (key, val) :: rest else (k, v) :: objSet rest key val

def objDelete : List (String × String) → String → List (String × String)
  | [], _ => []
  | (k, v) :: rest, key => if k = key then objDelete rest key else (k, v) :: objDelete rest key

def objKeys (o : List (String × String)) : List String := o.map Prod.fst

/-- `Object.assign(target, source)`: write every key of `source` into
`target`, overwriting on collision and preserving the other keys. -/
def objAssign (target source : List (String × String)) : List (String × String) :=
  source.foldl (fun acc kv => objSet acc kv.1 kv.2) target

/-- `tools.flashElement` colors. -/
inductive Flash
  | green
  | red
  | orange
deriving DecidableEq

/-- The runtime errors that can surface in the sync layer. -/
inductive JsError
  | notAuthenticated
  | nullUserUid
  | remoteRejection
deriving DecidableEq

namespace FirestoreWrapper

/-- `FirestoreWrapper.authCheck`: rejects with `Error('User not authenticated')`
when `this.user` is null.  (The method is `async`, so the error is delivered
as a rejected promise.) -/
def authCheck (user : Option String) : Except JsError Unit :=
  match user with
  | some _ => .ok ()
  | none => .error .notAuthenticated

/-- `FirestoreWrapper.reference(key)`: calls `this.authCheck()` **without**
`await` (discarding its rejected promise), then builds the document path from
`this.user.uid` — which throws a `TypeError` when `this.user` is null. -/
def reference (user : Option String) (name key : String) : Except JsError String :=
  let _ := authCheck user
  match user with
  | none => .error .nullUserUid
  | some uid => .ok ("users/" ++ uid ++ "/apps/" ++ name ++ "/documents/" ++ key)

/-- `FirestoreWrapper.write(key, data)`: document reference, then `setDoc`.
`netOk` models whether the remote store accepts the write. -/
def write (user : Option String) (name key : String) (netOk : Bool) :
    Except JsError Unit :=
  match reference user name key with
  | .error e => .error e
  | .ok _ => if netOk then .ok () else .error .remoteRejection

/-- `FirestoreWrapper.read(key)`: document reference, then `getDoc`; yields the
document's data, or `none` when the document does not exist. -/
def read (user : Option String) (name key : String)
    (remote : Option (List (String × String))) (netOk : Bool) :
    Except JsError (Option (List (String × String))) :=
  match reference user name key with
  | .error e => .error e
  | .ok _ => if netOk then .ok remote else .error .remoteRejection

end FirestoreWrapper

/-- `saveNotes()` from `script.js`: mutate the notes object (delete on empty
text), push the date short-key onto `calendar.starredDates`, then attempt the
remote write inside `try`/`catch`, flashing green on success and red on any
caught error.  The local mutations happen before the `await`, so they survive
a failed write; the `catch` converts every error into the red flash, so no
exception escapes. -/
def saveNotes (notes : List (String × String)) (calendar : CalendarWidget)
    (date text : String) (user : Option String) (name : String) (netOk : Bool) :
    List (String × String) × CalendarWidget × Flash :=
  let notes2 := if text = "" then objDelete notes date else objSet notes date text
  let calendar2 := { calendar with starredDates := calendar.starredDates ++ [date] }
  match FirestoreWrapper.write user name "notes" netOk with
  | .ok _ => (notes2, calendar2, Flash.green)
  | .error _ => (notes2, calendar2, Flash.red)

/-- `loadNotes()` from `script.js`: read the remote document; if present,
`Object.assign` it into the local notes and refresh the textarea for the
currently-open date; if absent, flash orange; in both non-error cases flash
green, push all current note keys onto `calendar.starredDates` and re-render
the calendar from `new Date()` (the wall clock `now`).  Any thrown error is
caught and flashed red, leaving notes, textarea and calendar untouched. -/
def loadNotes (now : Int) (notes : List (String × String))
    (textarea currentDate : String) (calendar : CalendarWidget)
    (user : Option String) (name : String)
    (remote : Option (List (String × String))) (netOk : Bool) :
    List (String × String) × String × CalendarWidget × List Flash :=
  match FirestoreWrapper.read user name "notes" remote netOk with
  | .error _ => (notes, textarea, calendar, [Flash.red])
  | .ok (some storedNotes) =>
    let notes2 := objAssign notes storedNotes
    let textarea2 := (objGet notes2 currentDate).getD ""
    let calendar2 := CalendarWidget.updateDate now
      { calendar with starredDates := calendar.starredDates ++ objKeys notes2 } now
    (notes2, textarea2, calendar2, [Flash.green])
  | .ok none =>
    let calendar2 := CalendarWidget.updateDate now
      { calendar with starredDates := calendar.starredDates ++ objKeys notes } now
    (notes, textarea, calendar2, [Flash.orange, Flash.green])

/-! ### Supporting lemmas: the month grid -/

/-- Re-rendering relation used everywhere below: every cell of the grid is the
first of the month shifted to the Monday on or before it, plus the index. -/
theorem getDateArray_closed (t : Int) :
    dateTools.getDateArray t = (List.range 42).map
      (fun (i : Nat) => setDate t 1 - (getDay (setDate t 1) + 6) % 7 + (i : Int)) := by
  have key : ∀ x : Int, setDate (setDate t 1) x = setDate t 1 + (x - 1) := by
    intro x
    rw [setDate_linear (setDate t 1) 1 x, setDate_setDate_one]
  simp only [dateTools.getDateArray, dateTools.cloneDate]
  refine List.map_congr_left ?_
  intro i _
  rw [key]
  omega

theorem getDateArray_getD (t : Int) (i : Nat) (hi : i < 42) :
    (dateTools.getDateArray t).getD i 0 =
      setDate t 1 - (getDay (setDate t 1) + 6) % 7 + (i : Int) := by
  rw [getDateArray_closed]
  rw [List.getD_eq_getElem?_getD, List.getElem?_map, List.getElem?_range hi]
  rfl

/-! ### Supporting lemmas: the notes object -/

theorem objGet_objSet_self (o : List (String × String)) (k v : String) :
    objGet (objSet o k v) k = some v := by
  induction o with
  | nil => simp [objSet, objGet]
  | cons kv rest ih =>
    obtain ⟨k0, v0⟩ := kv
    by_cases h : k0 = k
    · simp [objSet, objGet, h]
    · simp only [objSet, if_neg h, objGet]
      exact ih

theorem objGet_objSet_ne (o : List (String × String)) (k v k' : String) (h : k' ≠ k) :
    objGet (objSet o k v) k' = objGet o k' := by
  induction o with
  | nil => simp [objSet, objGet, if_neg (Ne.symm h)]
  | cons kv rest ih =>
    obtain ⟨k0, v0⟩ := kv
    by_cases h0 : k0 = k
    · subst h0
      simp only [objSet, if_pos rfl, objGet, if_neg (Ne.symm h)]
    · simp only [objSet, if_neg h0, objGet]
      by_cases h1 : k0 = k'
      · simp [h1]
      · rw [if_neg h1, if_neg h1]
        exact ih

theorem objGet_objDelete_self (o : List (String × String)) (k : String) :
    objGet (objDelete o k) k = none := by
  induction o with
  | nil => simp [objDelete, objGet]
  | cons kv rest ih =>
    obtain ⟨k0, v0⟩ := kv
    by_cases h : k0 = k
    · simpa [objDelete, h] using ih
    · simp only [objDelete, if_neg h, objGet]
      exact ih

theorem objGet_objDelete_ne (o : List (String × String)) (k k' : String) (h : k' ≠ k) :
    objGet (objDelete o k) k' = objGet o k' := by
  induction o with
  | nil => simp [objDelete]
  | cons kv rest ih =>
    obtain ⟨k0, v0⟩ := kv
    by_cases h0 : k0 = k
    · subst h0
      simp only [objDelete, if_pos rfl, objGet, if_neg (Ne.symm h)]
      exact ih
    · simp only [objDelete, if_neg h0, objGet]
      by_cases h1 : k0 = k'
      · simp [h1]
      · rw [if_neg h1, if_neg h1]
        exact ih

theorem objGet_eq_none_of_not_mem (o : List (String × String)) (k : String)
    (h : k ∉ objKeys o) : objGet o k = none := by
  induction o with
  | nil => rfl
  | cons kv rest ih =>
    obtain ⟨k0, v0⟩ := kv
    simp only [objKeys, List.map_cons, List.mem_cons] at h
    push_neg at h
    simp only [objGet]
    rw [if_neg (fun he => h.1 he.symm)]
    exact ih (by simpa [objKeys] using h.2)

/-- `Object.assign` merge: a key present in the source takes the source's
value, every other key keeps the target's value. -/
theorem objAssign_get (source : List (String × String))
    (hnd : (objKeys source).Nodup) (target : List (String × String)) (k : String) :
    objGet (objAssign target source) k =
      match objGet source k with
      | some v => some v
      | none => objGet target k := by
  induction source generalizing target with
  | nil => simp [objAssign, objGet]
  | cons kv rest ih =>
    obtain ⟨k0, v0⟩ := kv
    simp only [objKeys, List.map_cons, List.nodup_cons] at hnd
    have hstep : objAssign target ((k0, v0) :: rest) = objAssign (objSet target k0 v0) rest := rfl
    rw [hstep, ih (by simpa [objKeys] using hnd.2)]
    by_cases h : k0 = k
    · subst h
      have hnone : objGet rest k0 = none :=
        objGet_eq_none_of_not_mem rest k0 (by simpa [objKeys] using hnd.1)
      simp [objGet, hnone, objGet_objSet_self]
    · simp only [objGet]
      rw [if_neg h]
      rcases hrest : objGet rest k with _ | v
      · simpa using objGet_objSet_ne target k0 v0 k (fun he => h he.symm)
      · rfl

/-! ### Supporting lemmas: short-key strings -/

/-- Decidable lexicographic strict order on character lists (proof helper for
distinguishing formatted strings). -/
def charListLt : List Char → List Char → Bool
  | [], [] => false
  | [], _ :: _ => true
  | _ :: _, [] => false
  | a :: as, b :: bs =>
    if a.toNat < b.toNat then true
    else if a.toNat = b.toNat then charListLt as bs
    else false

theorem charListLt_irrefl : ∀ l : List Char, charListLt l l = false := by
  intro l
  induction l with
  | nil => rfl
  | cons a as ih => simp [charListLt, ih]

theorem charListLt_trans : ∀ a b c : List Char,
    charListLt a b = true → charListLt b c = true → charListLt a c = true := by
  intro a
  induction a with
  | nil =>
    intro b c hab hbc
    cases b with
    | nil => exact hbc
    | cons x xs =>
      cases c with
      | nil => simp [charListLt] at hbc
      | cons y ys => rfl
  | cons x xs ih =>
    intro b c hab hbc
    cases b with
    | nil => simp [charListLt] at hab
    | cons y ys =>
      cases c with
      | nil => simp [charListLt] at hbc
      | cons z zs =>
        simp only [charListLt] at hab hbc ⊢
        split_ifs at hab hbc ⊢ with h1 h2 h3 h4 h5 h6
        all_goals simp_all
        · omega
        · exact ih ys zs hab hbc
        · omega
        · omega

/-- Strict order on strings via their character lists. -/
def strLt (a b : String) : Bool := charListLt a.data b.data

theorem strLt_ne (a b : String) (h : strLt a b = true) : a ≠ b := by
  intro he
  subst he
  rw [strLt, charListLt_irrefl] at h
  exact Bool.false_ne_true h

/-- Four-digit year strings are strictly increasing over 1970..2100. -/
theorem yearStr_mono : ∀ a b : Nat, a < b → b ≤ 130 →
    strLt (toString (1970 + (a : Int))) (toString (1970 + (b : Int))) = true := by
  have step : ∀ n : Nat, n < 130 →
      strLt (toString (1970 + (n : Int))) (toString (1970 + ((n + 1 : Nat) : Int))) = true := by
    decide
  intro a b hab hb
  induction b with
  | zero => omega
  | succ b ih =>
    rcases Nat.lt_or_ge a b with h | h
    · exact charListLt_trans _ _ _ (ih h (by omega)) (step b (by omega))
    · have hab2 : a = b := by omega
      subst hab2
      exact step a (by omega)

theorem yearStr_inj (a b : Nat) (ha : a ≤ 130) (hb : b ≤ 130)
    (h : toString (1970 + (a : Int)) = toString (1970 + (b : Int))) : a = b := by
  rcases Nat.lt_trichotomy a b with hlt | heq | hgt
  · exact absurd h (strLt_ne _ _ (yearStr_mono a b hlt hb))
  · exact heq
  · exact absurd h.symm (strLt_ne _ _ (yearStr_mono b a hgt ha))

/-- Padded two-digit strings are strictly increasing over 1..31. -/
theorem pad2_mono : ∀ a b : Nat, a < b → b ≤ 30 →
    strLt (dateTools.pad2 (1 + (a : Int))) (dateTools.pad2 (1 + (b : Int))) = true := by
  have step : ∀ n : Nat, n < 30 →
      strLt (dateTools.pad2 (1 + (n : Int))) (dateTools.pad2 (1 + ((n + 1 : Nat) : Int))) = true := by
    decide
  intro a b hab hb
  induction b with
  | zero => omega
  | succ b ih =>
    rcases Nat.lt_or_ge a b with h | h
    · exact charListLt_trans _ _ _ (ih h (by omega)) (step b (by omega))
    · have hab2 : a = b := by omega
      subst hab2
      exact step a (by omega)

theorem pad2_inj (a b : Nat) (ha : a ≤ 30) (hb : b ≤ 30)
    (h : dateTools.pad2 (1 + (a : Int)) = dateTools.pad2 (1 + (b : Int))) : a = b := by
  rcases Nat.lt_trichotomy a b with hlt | heq | hgt
  · exact absurd h (strLt_ne _ _ (pad2_mono a b hlt hb))
  · exact heq
  · exact absurd h.symm (strLt_ne _ _ (pad2_mono b a hgt ha))

theorem yearStr_len : ∀ n : Nat, n < 131 → (toString (1970 + (n : Int))).length = 4 := by
  decide

theorem pad2_len : ∀ n : Nat, n < 31 → (dateTools.pad2 (1 + (n : Int))).length = 2 := by
  decide

/-- Splitting a `A-B-C` formatted string at known component lengths. -/
theorem format_inj (a1 b1 c1 a2 b2 c2 : String)
    (hla : a1.length = a2.length) (hlb : b1.length = b2.length)
    (h : a1 ++ "-" ++ b1 ++ "-" ++ c1 = a2 ++ "-" ++ b2 ++ "-" ++ c2) :
    a1 = a2 ∧ b1 = b2 ∧ c1 = c2 := by
  have hdata : ∀ s t : String, (s ++ t).data = s.data ++ t.data := by
    intro s t
    cases s
    cases t
    rfl
  have hmk : ∀ s t : String, s.data = t.data → s = t := by
    intro s t hst
    cases s
    cases t
    exact congrArg String.mk hst
  have ha' : a1.data.length = a2.data.length := hla
  have hb' : b1.data.length = b2.data.length := hlb
  have h0 : a1.data ++ "-".data ++ b1.data ++ "-".data ++ c1.data
      = a2.data ++ "-".data ++ b2.data ++ "-".data ++ c2.data := by
    have h1 := congrArg String.data h
    simpa only [hdata] using h1
  obtain ⟨h12, hc⟩ := List.append_inj h0
    (by simp only [List.length_append, ha', hb'])
  obtain ⟨h34, _⟩ := List.append_inj h12
    (by simp only [List.length_append, ha', hb'])
  obtain ⟨h56, hb⟩ := List.append_inj h34
    (by simp only [List.length_append, ha', hb'])
  obtain ⟨h78, _⟩ := List.append_inj h56 ha'
  exact ⟨hmk _ _ h78, hmk _ _ hb, hmk _ _ hc⟩

/-- On the days 1970-01-01 .. 2100-12-31 the short key determines the day:
`toShort` is injective there. -/
theorem toShort_inj (z1 z2 : Int) (h10 : 0 ≤ z1) (h11 : z1 ≤ 47846)
    (h20 : 0 ≤ z2) (h21 : z2 ≤ 47846)
    (he : dateTools.toShort z1 = dateTools.toShort z2) : z1 = z2 := by
  have hy1 := getFullYear_range z1 h10 h11
  have hy2 := getFullYear_range z2 h20 h21
  have hm1 := getMonth_range z1
  have hm2 := getMonth_range z2
  have hd1 := civilFromDays_range z1
  have hd2 := civilFromDays_range z2
  have hyr1 : getFullYear z1 = 1970 + (((getFullYear z1 - 1970).toNat : Nat) : Int) := by omega
  have hyr2 : getFullYear z2 = 1970 + (((getFullYear z2 - 1970).toNat : Nat) : Int) := by omega
  have hmr1 : getMonth z1 + 1 = 1 + (((getMonth z1).toNat : Nat) : Int) := by omega
  have hmr2 : getMonth z2 + 1 = 1 + (((getMonth z2).toNat : Nat) : Int) := by omega
  have hdr1 : getDate z1 = 1 + (((getDate z1 - 1).toNat : Nat) : Int) := by
    simp only [getDate] at *
    omega
  have hdr2 : getDate z2 = 1 + (((getDate z2 - 1).toNat : Nat) : Int) := by
    simp only [getDate] at *
    omega
  rw [dateTools.toShort, dateTools.toShort] at he
  obtain ⟨hY, hM, hD⟩ := format_inj _ _ _ _ _ _
    (by rw [hyr1, hyr2, yearStr_len _ (by omega), yearStr_len _ (by omega)])
    (by rw [hmr1, hmr2, pad2_len _ (by omega), pad2_len _ (by omega)])
    he
  have hYe : getFullYear z1 = getFullYear z2 := by
    rw [hyr1, hyr2] at hY ⊢
    have := yearStr_inj _ _ (by omega) (by omega) hY
    omega
  have hMe : getMonth z1 = getMonth z2 := by
    rw [hmr1, hmr2] at hM
    have := pad2_inj _ _ (by omega) (by omega) hM
    omega
  have hDe : getDate z1 = getDate z2 := by
    rw [hdr1, hdr2] at hD
    have := pad2_inj _ _ (by simp only [getDate] at *; omega)
      (by simp only [getDate] at *; omega) hD
    simp only [getDate] at *
    omega
  have hz1 := daysFromCivil_civilFromDays z1
  have hz2 := daysFromCivil_civilFromDays z2
  have hfy : (civilFromDays z1).1 = (civilFromDays z2).1 := hYe
  have hfm : (civilFromDays z1).2.1 = (civilFromDays z2).2.1 := by
    simp only [getMonth] at hMe
    omega
  have hfd : (civilFromDays z1).2.2 = (civilFromDays z2).2.2 := hDe
  rw [← hz1, ← hz2, hfy, hfm, hfd]

/-! ### The claims -/

/-- C1: for every reference date `D`, `getDateArray D` is an ordered sequence
of exactly 42 dates; its first element is the Monday on or before the first of
`D`'s month, at lead-in offset `(weekdayIndexOfFirstOfMonth + 6) % 7` before
the first; consecutive entries differ by one day; and for `D` = 2025-07-15 the
grid runs from 2025-06-30 to 2025-08-10. -/
theorem C1_month_grid :
    (∀ t : Int,
      (dateTools.getDateArray t).length = 42 ∧
      (∀ i : Nat, i < 41 →
        (dateTools.getDateArray t).getD (i + 1) 0 = (dateTools.getDateArray t).getD i 0 + 1) ∧
      (dateTools.getDateArray t).getD 0 0 =
        setDate t 1 - (getDay (setDate t 1) + 6) % 7 ∧
      getDay ((dateTools.getDateArray t).getD 0 0) = 1 ∧
      setDate t 1 - 6 ≤ (dateTools.getDateArray t).getD 0 0 ∧
      (dateTools.getDateArray t).getD 0 0 ≤ setDate t 1) ∧
    (dateTools.getDateArray (daysFromCivil 2025 7 15)).getD 0 0 = daysFromCivil 2025 6 30 ∧
    (dateTools.getDateArray (daysFromCivil 2025 7 15)).getD 41 0 = daysFromCivil 2025 8 10 := by
  refine ⟨fun t => ?_, by decide, by decide⟩
  have h0 := getDateArray_getD t 0 (by omega)
  refine ⟨?_, ?_, ?_, ?_, ?_, ?_⟩
  · rw [getDateArray_closed]
    simp
  · intro i hi
    rw [getDateArray_getD t (i + 1) (by omega), getDateArray_getD t i (by omega)]
    push_cast
    ring
  · simpa using h0
  · rw [h0]
    simp only [getDay]
    omega
  · rw [h0]
    omega
  · rw [h0]
    omega

/-- C1 witness: the consecutive-day property applied at the concrete reference
date 2025-07-15 and index 0. -/
theorem C1_month_grid_witness :
    (dateTools.getDateArray (daysFromCivil 2025 7 15)).getD 1 0 =
      (dateTools.getDateArray (daysFromCivil 2025 7 15)).getD 0 0 + 1 :=
  ((C1_month_grid.1 (daysFromCivil 2025 7 15)).2.1) 0 (by omega)

/-- C2: each cell gets exactly one classification, by the fixed precedence
out-of-month > today > chosen > starred > plain; in particular synthetic flags
that are simultaneously out-of-month and today classify as out-of-month. -/
theorem C2_precedence :
    (∀ o t c s : Bool,
      (classifyCell o t c s = DayCellState.dimmed ↔ o = true) ∧
      (classifyCell o t c s = DayCellState.today ↔ (o = false ∧ t = true)) ∧
      (classifyCell o t c s = DayCellState.marked ↔ (o = false ∧ t = false ∧ c = true)) ∧
      (classifyCell o t c s = DayCellState.starred ↔
        (o = false ∧ t = false ∧ c = false ∧ s = true)) ∧
      (classifyCell o t c s = DayCellState.plain ↔
        (o = false ∧ t = false ∧ c = false ∧ s = false))) ∧
    (∀ t c s : Bool, classifyCell true t c s = DayCellState.dimmed) ∧
    (∀ o t c s : Bool, (stateClasses (classifyCell o t c s)).length ≤ 1) := by
  decide

theorem daysFromCivil_day_shift (y m d : Int) :
    daysFromCivil y m d = daysFromCivil y m 1 + (d - 1) := by
  simp only [daysFromCivil]
  split_ifs <;> omega

/-- A widget as constructed before any interaction (no callback registered). -/
def emptyWidget : CalendarWidget :=
  { dateChosen := 0, dateToday := 0, dateDisplayed := 0, starredDates := [],
    navigatorText := "", cells := [], onDayClick := false }

/-- C3: a successful load additively merges the remote document into the local
store (remote value wins per key it contains, local-only keys survive), and in
the 2025-01-01/2025-02-02 scenario both keys end up in the store and in the
grid's starred set. -/
theorem C3_load_merge :
    (∀ (notes storedNotes : List (String × String)) (k : String),
      (objKeys storedNotes).Nodup →
      objGet (objAssign notes storedNotes) k =
        match objGet storedNotes k with
        | some v => some v
        | none => objGet notes k) ∧
    (objGet (loadNotes 0 [("2025-02-02", "b")] "" "x" emptyWidget (some "uid") "app"
        (some [("2025-01-01", "a")]) true).1 "2025-01-01" = some "a" ∧
     objGet (loadNotes 0 [("2025-02-02", "b")] "" "x" emptyWidget (some "uid") "app"
        (some [("2025-01-01", "a")]) true).1 "2025-02-02" = some "b" ∧
     (loadNotes 0 [("2025-02-02", "b")] "" "x" emptyWidget (some "uid") "app"
        (some [("2025-01-01", "a")]) true).2.2.1.starredDates.contains "2025-01-01" = true ∧
     (loadNotes 0 [("2025-02-02", "b")] "" "x" emptyWidget (some "uid") "app"
        (some [("2025-01-01", "a")]) true).2.2.1.starredDates.contains "2025-02-02" = true) := by
  refine ⟨fun notes stored k h => objAssign_get stored h notes k, by decide, by decide, ?_, ?_⟩ <;>
    decide

/-- C3 witness: the merge equation at the scenario's two stores and the remote
key. -/
theorem C3_load_merge_witness :
    objGet (objAssign [("2025-02-02", "b")] [("2025-01-01", "a")]) "2025-01-01" = some "a" := by
  have h := C3_load_merge.1 [("2025-02-02", "b")] [("2025-01-01", "a")] "2025-01-01" (by decide)
  simpa using h

/-- C4 (amended): clicking the month/year label re-renders from the widget's
stored `dateToday` (captured at construction, not the wall clock of the click)
and leaves `dateDisplayed` unchanged, so a subsequent `navigateMonth` advances
from the previously displayed month. -/
theorem C4_label_click :
    (∀ (now : Int) (w : CalendarWidget),
      (CalendarWidget.clickNavigatorText now w).dateDisplayed = w.dateDisplayed ∧
      (CalendarWidget.clickNavigatorText now w).dateChosen = w.dateChosen ∧
      (CalendarWidget.clickNavigatorText now w).dateToday = w.dateToday ∧
      (CalendarWidget.clickNavigatorText now w).navigatorText =
        dateTools.toMonthName w.dateToday ++ " " ++ toString (dateTools.toYear w.dateToday) ∧
      (CalendarWidget.clickNavigatorText now w).cells =
        (CalendarWidget.updateDate now w w.dateToday).cells) ∧
    (∀ (now : Int) (w : CalendarWidget) (c : Int),
      (CalendarWidget.navigateMonth now (CalendarWidget.clickNavigatorText now w) c).dateDisplayed =
        setMonth w.dateDisplayed (getMonth w.dateDisplayed + c)) :=
  ⟨fun _ _ => ⟨rfl, rfl, rfl, rfl, rfl⟩, fun _ _ _ => rfl⟩

def c4now : Int := daysFromCivil 2026 1 5

def c4widget : CalendarWidget :=
  { dateChosen := daysFromCivil 2025 12 11, dateToday := daysFromCivil 2025 12 11,
    dateDisplayed := daysFromCivil 2025 7 15, starredDates := [], navigatorText := "",
    cells := [], onDayClick := true }

/-- C4 counterexample: with the wall clock at 2026-01-05, `dateToday` captured
as 2025-12-11 and July 2025 displayed, clicking the label neither resets
`dateDisplayed` to the click-time date (it stays 2025-07-15 and the label
shows December 2025) nor makes the next navigate advance from the current
month (it yields August 2025, not February 2026). -/
theorem C4_counterexample :
    dateTools.isSameDate (CalendarWidget.clickNavigatorText c4now c4widget).dateDisplayed
      c4now = false ∧
    getFullYear (CalendarWidget.clickNavigatorText c4now c4widget).dateDisplayed = 2025 ∧
    getMonth (CalendarWidget.clickNavigatorText c4now c4widget).dateDisplayed = 6 ∧
    (CalendarWidget.clickNavigatorText c4now c4widget).navigatorText = "December 2025" ∧
    getFullYear (CalendarWidget.navigateMonth c4now
      (CalendarWidget.clickNavigatorText c4now c4widget) 1).dateDisplayed = 2025 ∧
    getMonth (CalendarWidget.navigateMonth c4now
      (CalendarWidget.clickNavigatorText c4now c4widget) 1).dateDisplayed = 7 := by
  decide

def c5july : CalendarWidget := { emptyWidget with dateDisplayed := daysFromCivil 2025 7 15 }

def c5august : CalendarWidget := { emptyWidget with dateDisplayed := daysFromCivil 2025 8 20 }

/-- C5 (amended): `navigateMonth(change)` applies JavaScript `setMonth`
normalization to `dateDisplayed` and re-renders from it.  Whenever the
displayed day-of-month is at most 28 this is exact calendar month arithmetic
(year gains `(m0 + change) / 12`, month becomes `(m0 + change) % 12`, day kept);
a day-of-month exceeding the target month's length rolls over into the
following month.  The spec's two scenarios hold. -/
theorem C5_navigate :
    (∀ (now : Int) (w : CalendarWidget) (c : Int),
      (CalendarWidget.navigateMonth now w c).dateDisplayed =
        setMonth w.dateDisplayed (getMonth w.dateDisplayed + c) ∧
      (CalendarWidget.navigateMonth now w c).navigatorText =
        dateTools.toMonthName (setMonth w.dateDisplayed (getMonth w.dateDisplayed + c)) ++ " " ++
          toString (dateTools.toYear (setMonth w.dateDisplayed (getMonth w.dateDisplayed + c)))) ∧
    (∀ (y m d delta : Int), 1 ≤ m → m ≤ 12 → 1 ≤ d → d ≤ 28 →
      getFullYear (setMonth (daysFromCivil y m d) (getMonth (daysFromCivil y m d) + delta)) =
        y + (m - 1 + delta) / 12 ∧
      getMonth (setMonth (daysFromCivil y m d) (getMonth (daysFromCivil y m d) + delta)) =
        (m - 1 + delta) % 12 ∧
      getDate (setMonth (daysFromCivil y m d) (getMonth (daysFromCivil y m d) + delta)) = d) ∧
    (getFullYear (CalendarWidget.navigateMonth 0 c5july 1).dateDisplayed = 2025 ∧
     getMonth (CalendarWidget.navigateMonth 0 c5july 1).dateDisplayed = 7) ∧
    (getFullYear (CalendarWidget.navigateMonth 0 c5august (-13)).dateDisplayed = 2024 ∧
     getMonth (CalendarWidget.navigateMonth 0 c5august (-13)).dateDisplayed = 6) := by
  refine ⟨fun _ _ _ => ⟨rfl, rfl⟩, ?_, by decide, by decide⟩
  intro y m d delta hm1 hm2 hd1 hd2
  have hfields := civilFromDays_daysFromCivil y m d hm1 hm2 hd1 (by omega)
  have hgy : getFullYear (daysFromCivil y m d) = y := by
    simp [getFullYear, hfields]
  have hgm : getMonth (daysFromCivil y m d) = m - 1 := by
    simp [getMonth, hfields]
  have hgd : getDate (daysFromCivil y m d) = d := by
    simp [getDate, hfields]
  have hsm : setMonth (daysFromCivil y m d) (m - 1 + delta) =
      daysFromCivil (y + (m - 1 + delta) / 12) ((m - 1 + delta) % 12 + 1) d := by
    simp only [setMonth, makeDay, hgy, hgd]
    rw [daysFromCivil_day_shift (y + (m - 1 + delta) / 12) ((m - 1 + delta) % 12 + 1) d]
  have hf2 := civilFromDays_daysFromCivil (y + (m - 1 + delta) / 12)
    ((m - 1 + delta) % 12 + 1) d (by omega) (by omega) hd1 hd2
  rw [hgm, hsm]
  refine ⟨?_, ?_, ?_⟩
  · simp [getFullYear, hf2]
  · simp only [getMonth, hf2]
    omega
  · simp [getDate, hf2]

/-- C5 witness: exact month arithmetic at 2025-07-15, `navigate(+1)`. -/
theorem C5_navigate_witness :
    getDate (setMonth (daysFromCivil 2025 7 15)
      (getMonth (daysFromCivil 2025 7 15) + 1)) = 15 :=
  (C5_navigate.2.1 2025 7 15 1 (by norm_num) (by norm_num) (by norm_num) (by norm_num)).2.2

def c5jan31 : CalendarWidget := { emptyWidget with dateDisplayed := daysFromCivil 2025 1 31 }

/-- C5 counterexample: `navigate(+1)` from displayed date 2025-01-31 yields
2025-03-03 — the displayed month becomes March, not February, so the
navigation is not calendar-safe month arithmetic for every displayed month. -/
theorem C5_counterexample :
    getFullYear (CalendarWidget.navigateMonth 0 c5jan31 1).dateDisplayed = 2025 ∧
    getMonth (CalendarWidget.navigateMonth 0 c5jan31 1).dateDisplayed = 2 ∧
    getDate (CalendarWidget.navigateMonth 0 c5jan31 1).dateDisplayed = 3 ∧
    getMonth (CalendarWidget.navigateMonth 0 c5jan31 1).dateDisplayed ≠ 1 := by
  decide

/-- C6: `save(dateKey, text)` removes the key on empty text (idempotently) and
sets it otherwise; the local mutation is independent of the remote write's
outcome (optimistic, no rollback); a failed write is caught and signalled by
the red flash, so no exception escapes `saveNotes`. -/
theorem C6_save :
    ∀ (notes : List (String × String)) (calendar : CalendarWidget)
      (date text : String) (user : Option String) (name : String) (netOk : Bool),
      (text = "" → objGet (saveNotes notes calendar date text user name netOk).1 date = none) ∧
      (text ≠ "" →
        objGet (saveNotes notes calendar date text user name netOk).1 date = some text) ∧
      (∀ k, k ≠ date →
        objGet (saveNotes notes calendar date text user name netOk).1 k = objGet notes k) ∧
      (∀ (user' : Option String) (netOk' : Bool),
        (saveNotes notes calendar date text user name netOk).1 =
          (saveNotes notes calendar date text user' name netOk').1) ∧
      ((FirestoreWrapper.write user name "notes" netOk).isOk = false →
        (saveNotes notes calendar date text user name netOk).2.2 = Flash.red) := by
  intro notes calendar date text user name netOk
  have hfst : ∀ (u : Option String) (n : Bool),
      (saveNotes notes calendar date text u name n).1 =
        if text = "" then objDelete notes date else objSet notes date text := by
    intro u n
    simp only [saveNotes]
    rcases FirestoreWrapper.write u name "notes" n with _ | e <;> rfl
  refine ⟨?_, ?_, ?_, ?_, ?_⟩
  · intro h
    rw [hfst, if_pos h]
    exact objGet_objDelete_self notes date
  · intro h
    rw [hfst, if_neg h]
    exact objGet_objSet_self notes date text
  · intro k hk
    rw [hfst]
    split_ifs with h
    · exact objGet_objDelete_ne notes date k hk
    · exact objGet_objSet_ne notes date text k hk
  · intro u n
    rw [hfst, hfst]
  · intro h
    simp only [saveNotes]
    rcases hw : FirestoreWrapper.write user name "notes" netOk with e | u
    · rfl
    · rw [hw] at h
      simp [Except.toBool] at h

/-- C6 witness: the empty-text save removes the key even when the remote
write is rejected. -/
theorem C6_save_witness :
    objGet (saveNotes [("2025-07-01", "x")] emptyWidget "2025-07-01" "" (some "u")
      "app" false).1 "2025-07-01" = none :=
  (C6_save [("2025-07-01", "x")] emptyWidget "2025-07-01" "" (some "u") "app" false).1 rfl

/-- C7 (amended): every save — successful or not, deleting or setting —
appends the saved date's short-key to the grid's starred set and triggers no
re-render; the starred set is not recomputed from the store's key set, so a
day whose note was just deleted by an empty-text save remains starred. -/
theorem C7_starred_after_save :
    (∀ (notes : List (String × String)) (calendar : CalendarWidget)
      (date text : String) (user : Option String) (name : String) (netOk : Bool),
      (saveNotes notes calendar date text user name netOk).2.1.starredDates =
        calendar.starredDates ++ [date] ∧
      (saveNotes notes calendar date text user name netOk).2.1.cells = calendar.cells ∧
      (saveNotes notes calendar date text user name netOk).2.1.navigatorText =
        calendar.navigatorText) ∧
    (CalendarWidget.shouldStar
      (saveNotes [("2025-07-01", "x")] emptyWidget "2025-07-01" "" (some "u") "app" true).2.1
      (daysFromCivil 2025 7 1) = true ∧
     objGet (saveNotes [("2025-07-01", "x")] emptyWidget "2025-07-01" "" (some "u") "app"
      true).1 (dateTools.toShort (daysFromCivil 2025 7 1)) = none) := by
  refine ⟨?_, by decide, by decide⟩
  intro notes calendar date text user name netOk
  simp only [saveNotes]
  rcases FirestoreWrapper.write user name "notes" netOk with _ | e <;> exact ⟨rfl, rfl, rfl⟩

/-- C7 counterexample: after a successful empty-text save of 2025-07-01 (which
removes the note), the day 2025-07-01 is starred although the store holds no
note for it — starred days are not exactly the days with a stored note. -/
theorem C7_counterexample :
    CalendarWidget.shouldStar
      (saveNotes [("2025-07-01", "x")] emptyWidget "2025-07-01" "" (some "u") "app" true).2.1
      (daysFromCivil 2025 7 1) = true ∧
    objGet (saveNotes [("2025-07-01", "x")] emptyWidget "2025-07-01" "" (some "u") "app"
      true).1 (dateTools.toShort (daysFromCivil 2025 7 1)) = none ∧
    ¬(CalendarWidget.shouldStar
        (saveNotes [("2025-07-01", "x")] emptyWidget "2025-07-01" "" (some "u") "app" true).2.1
        (daysFromCivil 2025 7 1) = true ↔
      (objGet (saveNotes [("2025-07-01", "x")] emptyWidget "2025-07-01" "" (some "u") "app"
        true).1 (dateTools.toShort (daysFromCivil 2025 7 1))).isSome = true) := by
  decide

/-- C8: a load with no authenticated identity fails before touching anything:
the store, textarea and widget are unchanged and the only observable effect is
the red failure flash.  The underlying `read` rejects exactly because the user
is absent (`authCheck` rejects with the unauthenticated error, whose promise
is discarded, and the path construction then throws on the null user), while
an authenticated read succeeds. -/
theorem C8_unauthenticated_load :
    ∀ (now : Int) (notes : List (String × String)) (textarea currentDate : String)
      (calendar : CalendarWidget) (name : String)
      (remote : Option (List (String × String))) (netOk : Bool),
      loadNotes now notes textarea currentDate calendar none name remote netOk =
        (notes, textarea, calendar, [Flash.red]) ∧
      FirestoreWrapper.read none name "notes" remote netOk =
        Except.error JsError.nullUserUid ∧
      FirestoreWrapper.authCheck none = Except.error JsError.notAuthenticated ∧
      (∀ uid : String, FirestoreWrapper.read (some uid) name "notes" remote true =
        Except.ok remote) :=
  fun _ _ _ _ _ _ _ _ => ⟨rfl, rfl, rfl, fun _ => rfl⟩

/-- C9: on the days 1970-01-01 .. 2100-12-31 (epoch days 0 .. 47846),
`toShort` produces the local-calendar `YYYY-MM-DD` string of the day and is
injective: distinct days yield distinct strings. -/
theorem C9_shortkey_injective :
    (∀ z1 z2 : Int, 0 ≤ z1 → z1 ≤ 47846 → 0 ≤ z2 → z2 ≤ 47846 →
      dateTools.toShort z1 = dateTools.toShort z2 → z1 = z2) ∧
    dateTools.toShort (daysFromCivil 2025 8 3) = "2025-08-03" ∧
    dateTools.toShort 0 = "1970-01-01" ∧
    dateTools.toShort 47846 = "2100-12-31" :=
  ⟨toShort_inj, by decide, by decide, by decide⟩

/-- C9 witness: the injectivity statement applied at the concrete day
2025-08-03 (epoch day `daysFromCivil 2025 8 3`) against itself. -/
theorem C9_shortkey_witness : daysFromCivil 2025 8 3 = daysFromCivil 2025 8 3 :=
  C9_shortkey_injective.1 (daysFromCivil 2025 8 3) (daysFromCivil 2025 8 3)
    (by decide) (by decide) (by decide) (by decide) rfl

/-- C10: with no day-selection callback registered, clicking a day cell leaves
the widget's entire state unchanged and schedules no re-render. -/
theorem C10_click_without_callback :
    ∀ (w : CalendarWidget) (cellDate : Int),
      w.onDayClick = false →
      CalendarWidget.clickDay w cellDate = (w, false) := by
  intro w d h
  simp [CalendarWidget.clickDay, h]

/-- C10 witness: a concrete widget with no callback. -/
theorem C10_click_without_callback_witness :
    CalendarWidget.clickDay emptyWidget 10 = (emptyWidget, false) :=
  C10_click_without_callback emptyWidget 10 rfl
